import Mathlib

/-!
Shallow embedding of the go-multikeypair module (keypair.go and
recursivekey.go), a multiformat-style codec for cryptographic keypairs.

Bytes are modelled as natural numbers (values `< 256` on the byte domain);
byte slices as `List Nat`.  Go error returns become `Except KErr`; the
`panic(err)` in the encoders becomes `Option` (`none` = panic).  The
`cryptobyte` builder/reader primitives used by the source are embedded
directly: a 24-bit or 16-bit big-endian length prefix followed by the
payload, the builder failing when a payload exceeds its prefix width and
the reader failing when the declared length exceeds the remaining input.
The varint codec follows Go `encoding/binary.Uvarint` / `PutUvarint`
byte for byte, including the overflow and short-buffer conditions.
-/

deriving instance DecidableEq for Except

namespace Multikeypair

/-- The errors exported by the module (keypair.go `var (...)` block). -/
inductive KErr where
  | unknownCode
  | tooShort
  | tooLong
  | invalidMultikeypair
  | varintBufferShort
  | varintTooLong
  deriving DecidableEq, Repr

/-- Cipher code constants (keypair.go `const` block). -/
def IDENTITY : Nat := 0x00

def ED_25519 : Nat := 0x11

def BIP_32 : Nat := 0x12

def DSA : Nat := 0x13

def RSA : Nat := 0x14

/-- Source `Names`: mapping from cipher name to code (note the `"res"` key). -/
def Names : List (String × Nat) :=
  [("identity", IDENTITY), ("ed25519", ED_25519), ("bip32", BIP_32),
   ("dsa", DSA), ("res", RSA)]

/-- Source `Codes`: mapping from cipher code to name. -/
def Codes : List (Nat × String) :=
  [(IDENTITY, "identity"), (ED_25519, "ed25519"), (BIP_32, "bip32"),
   (DSA, "dsa"), (RSA, "rsa")]

/-- Go map lookup `Codes[code]` (zero value `""` when absent). -/
def codesLookup (code : Nat) : String :=
  ((Codes.find? (fun p => p.1 = code)).map Prod.snd).getD ""

/-- Go map lookup `Names[name]` (zero value `0` when absent). -/
def namesLookup (name : String) : Nat :=
  ((Names.find? (fun p => p.1 = name)).map Prod.snd).getD 0

/-- Source `RecursiveNames`: recursive cipher name-to-code registry (empty). -/
def RecursiveNames : List (String × Nat) := []

/-- Source `RecursiveCodes`: recursive cipher code-to-name registry (empty). -/
def RecursiveCodes : List (Nat × String) := []

/-- The `Keypair` struct, fields in source order. -/
structure Keypair where
  Code : Nat
  Name : String
  Public : List Nat
  PublicLength : Nat
  Private : List Nat
  PrivateLength : Nat
  deriving DecidableEq, Repr

/-- The `Recursivekey` struct, fields in source order.  `ChildrenNum` is a
Go `int` (it is assigned from `int(childLen)`, a signed 64-bit cast of the
decoded varint), so it is modelled as `Int`. -/
structure Recursivekey where
  Code : Nat
  Name : String
  Master : List Nat
  MasterLength : Nat
  ChildrenNum : Int
  Children : List Keypair
  deriving DecidableEq, Repr

/-- Source `validCode`: membership of `code` in the `Codes` registry. -/
def validCode (code : Nat) : Except KErr Unit :=
  if Codes.any (fun p => p.1 = code) then .ok () else .error .unknownCode

/-- Source `validRecursiveCode`: membership in the (empty) `RecursiveCodes`. -/
def validRecursiveCode (code : Nat) : Except KErr Unit :=
  if RecursiveCodes.any (fun p => p.1 = code) then .ok ()
  else .error .unknownCode

/-! ## Varint codec (Go `encoding/binary` Uvarint / PutUvarint) -/

/-- The loop of `binary.PutUvarint`: while `x >= 0x80` emit
`byte(x) | 0x80` and shift right by 7, then emit the final byte. -/
def putUvarint (x : Nat) : List Nat :=
  if h : x < 128 then [x]
  else (x % 128 + 128) :: putUvarint (x / 128)
termination_by x
decreasing_by exact Nat.div_lt_self (by omega) (by norm_num)

/-- Result of `binary.Uvarint`: a value together with the count of bytes
read, or one of the two failure modes (`n == 0` and `n < 0` in Go). -/
inductive UvarintResult where
  | ok (value : Nat) (n : Nat)
  | tooShort
  | overflow
  deriving DecidableEq, Repr

/-- The loop of `binary.Uvarint` over the buffer, carrying the byte index
`i`, the shift `s` and the accumulator `x`.  Reaching index 10 is an
overflow; a terminating byte at index 9 greater than 1 is an overflow;
running out of bytes with the continuation bit still set returns `(0, 0)`
(modelled `tooShort`).  Since each 7-bit group lands above all previous
bits, the Go expression `x |= b << s` is addition here. -/
def uvarintGo : List Nat → Nat → Nat → Nat → UvarintResult
  | [], _, _, _ => .tooShort
  | b :: rest, i, s, x =>
    if i = 10 then .overflow
    else if b < 128 then
      if i = 9 ∧ 1 < b then .overflow
      else .ok (x + b * 2 ^ s) (i + 1)
    else uvarintGo rest (i + 1) (s + 7) (x + b % 128 * 2 ^ s)

/-- Source `binary.Uvarint buf`. -/
def uvarint (buf : List Nat) : UvarintResult := uvarintGo buf 0 0 0

/-- Source `PackCode`: minimal varint encoding of a cipher code. -/
def PackCode (code : Nat) : List Nat := putUvarint code

/-- Source `UnpackCode`: decode the leading varint; `n == 0` is
`ErrVarintBufferShort`, `n < 0` is `ErrVarintTooLong`. -/
def UnpackCode (buf : List Nat) : Except KErr Nat :=
  match uvarint buf with
  | .tooShort => .error .varintBufferShort
  | .overflow => .error .varintTooLong
  | .ok code _ => .ok code

/-- Source `PackLen`: varint encoding of a (non-negative) child count, after the
Go conversion `uint64(len)`. -/
def PackLen (len : Nat) : List Nat := putUvarint len

/-- Source `UnpackLen`: decode the leading varint and cast `uint64 → int`
(a 64-bit signed wrap, hence the `Int` result). -/
def UnpackLen (buf : List Nat) : Except KErr Int :=
  match uvarint buf with
  | .tooShort => .error .varintBufferShort
  | .overflow => .error .varintTooLong
  | .ok v _ =>
    .ok (if v % 2 ^ 64 < 2 ^ 63 then ((v % 2 ^ 64 : Nat) : Int)
         else ((v % 2 ^ 64 : Nat) : Int) - 2 ^ 64)

/-! ## cryptobyte builder / reader primitives -/

/-- Big-endian 16-bit length prefix bytes. -/
def u16be (n : Nat) : List Nat := [n / 256 % 256, n % 256]

/-- Big-endian 24-bit length prefix bytes. -/
def u24be (n : Nat) : List Nat := [n / 65536 % 256, n / 256 % 256, n % 256]

/-- Source `Builder.AddUint16LengthPrefixed`: fails (builder error, hence panic
in the callers) when the payload does not fit a 2-byte prefix. -/
def addU16LengthPrefixed (payload : List Nat) : Option (List Nat) :=
  if payload.length < 65536 then some (u16be payload.length ++ payload)
  else none

/-- Source `Builder.AddUint24LengthPrefixed`: fails when the payload does not
fit a 3-byte prefix. -/
def addU24LengthPrefixed (payload : List Nat) : Option (List Nat) :=
  if payload.length < 16777216 then some (u24be payload.length ++ payload)
  else none

/-- Source `String.ReadUint16LengthPrefixed`: read a 2-byte big-endian length,
then that many bytes; `none` when the input is too short.  Returns the
extracted field and the remaining input. -/
def readUint16LengthPrefixed (buf : List Nat) :
    Option (List Nat × List Nat) :=
  match buf with
  | b0 :: b1 :: rest =>
    let n := b0 * 256 + b1
    if n ≤ rest.length then some (rest.take n, rest.drop n) else none
  | _ => none

/-- Source `String.ReadUint24LengthPrefixed`: read a 3-byte big-endian length,
then that many bytes. -/
def readUint24LengthPrefixed (buf : List Nat) :
    Option (List Nat × List Nat) :=
  match buf with
  | b0 :: b1 :: b2 :: rest =>
    let n := b0 * 65536 + b1 * 256 + b2
    if n ≤ rest.length then some (rest.take n, rest.drop n) else none
  | _ => none

/-! ## Keypair codec -/

/-- Source `encodeKeypair`: pack the code and the two keys into a nested TLV
frame.  `none` models the `panic(err)` taken when the cryptobyte builder
reports a length-prefix overflow. -/
def encodeKeypair (priv pub : List Nat) (code : Nat) : Option (List Nat) :=
  match addU16LengthPrefixed (PackCode code), addU16LengthPrefixed priv,
        addU16LengthPrefixed pub with
  | some f1, some f2, some f3 => addU24LengthPrefixed (f1 ++ f2 ++ f3)
  | _, _, _ => none

/-- Outcome of the exported encode entry points: an error return, a
successful frame, or a panic raised inside `encodeKeypair` /
`encodeRecursivekey`. -/
inductive EncodeResult (α : Type) where
  | ok (val : α)
  | err (e : KErr)
  | panicked
  deriving DecidableEq, Repr

/-- Source `Encode`: validate the code, then build the frame (panicking if the
builder fails). -/
def Encode (priv pub : List Nat) (code : Nat) : EncodeResult (List Nat) :=
  match validCode code with
  | .error e => .err e
  | .ok _ =>
    match encodeKeypair priv pub code with
    | some b => .ok b
    | none => .panicked

/-- Source `EncodeName`: look the name up in `Names` (Go zero value `0` when
absent) and encode with the resulting code. -/
def EncodeName (priv pub : List Nat) (name : String) :
    EncodeResult (List Nat) :=
  Encode priv pub (namesLookup name)

/-- Source `decodeKeypair`: parse the outer 24-bit frame (rejecting trailing
bytes), read the code field and unpack it, read the private and public
fields, then validate the code and assemble the struct. -/
def decodeKeypair (buf : List Nat) : Except KErr Keypair :=
  match readUint24LengthPrefixed buf with
  | none => .error .invalidMultikeypair
  | some (values, rest) =>
    if rest ≠ [] then .error .invalidMultikeypair else
    match readUint16LengthPrefixed values with
    | none => .error .invalidMultikeypair
    | some (code, values1) =>
      match UnpackCode code with
      | .error e => .error e
      | .ok numCode =>
        match readUint16LengthPrefixed values1 with
        | none => .error .invalidMultikeypair
        | some (priv, values2) =>
          match readUint16LengthPrefixed values2 with
          | none => .error .invalidMultikeypair
          | some (pub, _) =>
            match validCode numCode with
            | .error e => .error e
            | .ok _ =>
              .ok { Code := numCode, Name := codesLookup numCode,
                    Public := pub, PublicLength := pub.length,
                    Private := priv, PrivateLength := priv.length }

/-- Source `Decode`: unpack a Multikeypair into a `Keypair`. -/
def Decode (m : List Nat) : Except KErr Keypair := decodeKeypair m

/-! ## Recursive keypair codec -/

/-- The per-child encoding loop of `encodeRecursivekey`: each child is
encoded as a full `encodeKeypair` frame wrapped in its own 16-bit
length-prefixed field. -/
def encodeChildren : List Keypair → Option (List Nat)
  | [] => some []
  | child :: rest =>
    match encodeKeypair child.Private child.Public child.Code with
    | none => none
    | some cf =>
      match addU16LengthPrefixed cf, encodeChildren rest with
      | some f, some fs => some (f ++ fs)
      | _, _ => none

/-- Source `encodeRecursivekey`: code field, master field, children-count field,
then one field per child.  `none` models the builder-error panic. -/
def encodeRecursivekey (master : List Nat) (children : List Keypair)
    (code : Nat) : Option (List Nat) :=
  match addU16LengthPrefixed (PackCode code), addU16LengthPrefixed master,
        addU16LengthPrefixed (PackLen children.length),
        encodeChildren children with
  | some f1, some f2, some f3, some childFields =>
    addU24LengthPrefixed (f1 ++ f2 ++ f3 ++ childFields)
  | _, _, _, _ => none

/-- Source `RecursiveEncode`: validate against the recursive registry, then
build the frame. -/
def RecursiveEncode (master : List Nat) (children : List Keypair)
    (code : Nat) : EncodeResult (List Nat) :=
  match validRecursiveCode code with
  | .error e => .err e
  | .ok _ =>
    match encodeRecursivekey master children code with
    | some b => .ok b
    | none => .panicked

/-- Source `EncodeRecursiveName`: look the name up in the flat `Names` registry
and recursively encode with the resulting code. -/
def EncodeRecursiveName (master : List Nat) (children : List Keypair)
    (name : String) : EncodeResult (List Nat) :=
  RecursiveEncode master children (namesLookup name)

/-- The child-reading loop of `decodeRecursivekey`: read `n` 16-bit
length-prefixed fields and decode each as a full Multikeypair frame,
in order. -/
def readChildren : Nat → List Nat → Except KErr (List Keypair × List Nat)
  | 0, values => .ok ([], values)
  | n + 1, values =>
    match readUint16LengthPrefixed values with
    | none => .error .invalidMultikeypair
    | some (children, values1) =>
      match decodeKeypair children with
      | .error e => .error e
      | .ok kp =>
        match readChildren n values1 with
        | .error e => .error e
        | .ok (kps, restv) => .ok (kp :: kps, restv)

/-- Source `decodeRecursivekey`: outer frame, code field, master field,
children-count field (`UnpackLen`, a signed count: the Go loop
`for i := 0; i < childLen` runs `childLen.toNat` times), the child
fields, then the code validity check and assembly. -/
def decodeRecursivekey (buf : List Nat) : Except KErr Recursivekey :=
  match readUint24LengthPrefixed buf with
  | none => .error .invalidMultikeypair
  | some (values, rest) =>
    if rest ≠ [] then .error .invalidMultikeypair else
    match readUint16LengthPrefixed values with
    | none => .error .invalidMultikeypair
    | some (code, values1) =>
      match UnpackCode code with
      | .error e => .error e
      | .ok numCode =>
        match readUint16LengthPrefixed values1 with
        | none => .error .invalidMultikeypair
        | some (master, values2) =>
          match readUint16LengthPrefixed values2 with
          | none => .error .invalidMultikeypair
          | some (childrenNum, values3) =>
            match UnpackLen childrenNum with
            | .error e => .error e
            | .ok childLen =>
              match readChildren childLen.toNat values3 with
              | .error e => .error e
              | .ok (keypairs, _) =>
                match validCode numCode with
                | .error e => .error e
                | .ok _ =>
                  .ok { Code := numCode, Name := codesLookup numCode,
                        Master := master, MasterLength := master.length,
                        ChildrenNum := childLen, Children := keypairs }

/-- Source `RecursiveDecode`: unpack a Multirecursivekey into a `Recursivekey`. -/
def RecursiveDecode (m : List Nat) : Except KErr Recursivekey :=
  decodeRecursivekey m

/-- A `Keypair` value whose derived fields are consistent with its raw
fields (name resolved from the code, length fields equal to the actual
byte lengths) and whose key material fits the 16-bit field limits with
room for the fixed 10 bytes of framing. -/
def wellFormedChild (k : Keypair) : Prop :=
  validCode k.Code = .ok () ∧ k.Name = codesLookup k.Code ∧
  k.PrivateLength = k.Private.length ∧ k.PublicLength = k.Public.length ∧
  k.Private.length + k.Public.length ≤ 65525

instance (k : Keypair) : Decidable (wellFormedChild k) := by
  unfold wellFormedChild
  infer_instance

/-- The exact number of bytes the children contribute to the recursive
frame: each child occupies a 16-bit field prefix (2 bytes) wrapping a
full flat frame of 10 framing bytes plus the key material. -/
def childrenWireSize (children : List Keypair) : Nat :=
  (children.map (fun k => 12 + k.Private.length + k.Public.length)).sum

/-! ## Helper lemmas -/

lemma validCode_cases {code : Nat} (h : validCode code = .ok ()) :
    code = 0 ∨ code = 17 ∨ code = 18 ∨ code = 19 ∨ code = 20 := by
  by_contra hne
  push_neg at hne
  obtain ⟨h0, h17, h18, h19, h20⟩ := hne
  simp only [validCode, Codes, IDENTITY, ED_25519, BIP_32, DSA, RSA,
    List.any_cons, List.any_nil, Bool.or_false, decide_eq_true_eq] at h
  rw [if_neg] at h
  · exact Except.noConfusion h
  · simp only [Bool.or_eq_true, decide_eq_true_eq]
    omega

lemma validCode_lt {code : Nat} (h : validCode code = .ok ()) : code < 128 := by
  rcases validCode_cases h with h' | h' | h' | h' | h' <;> omega

lemma packCode_small {c : Nat} (h : c < 128) : PackCode c = [c] := by
  rw [PackCode, putUvarint, dif_pos h]

lemma unpackCode_single {c : Nat} (h : c < 128) : UnpackCode [c] = .ok c := by
  have h9 : ¬(0 = 9 ∧ 1 < c) := by omega
  simp [UnpackCode, uvarint, uvarintGo, h, h9]

lemma readU16_frame (l rest : List Nat) (h : l.length < 65536) :
    readUint16LengthPrefixed (u16be l.length ++ (l ++ rest)) =
      some (l, rest) := by
  have hn : l.length / 256 % 256 * 256 + l.length % 256 = l.length := by
    omega
  simp only [readUint16LengthPrefixed, u16be, List.cons_append,
    List.nil_append, hn]
  rw [if_pos (by simp)]
  rw [List.take_left' rfl, List.drop_left' rfl]

lemma readU24_frame (l rest : List Nat) (h : l.length < 16777216) :
    readUint24LengthPrefixed (u24be l.length ++ (l ++ rest)) =
      some (l, rest) := by
  have hn : l.length / 65536 % 256 * 65536 +
      (l.length / 256 % 256 * 256 + l.length % 256) = l.length := by
    omega
  simp only [readUint24LengthPrefixed, u24be, List.cons_append,
    List.nil_append, Nat.mul_add, ← Nat.add_assoc] at *
  rw [show l.length / 65536 % 256 * 65536 + l.length / 256 % 256 * 256 +
      l.length % 256 = l.length by omega]
  rw [if_pos (by simp)]
  rw [List.take_left' rfl, List.drop_left' rfl]

lemma decodeKeypair_ok_of (buf v c v1 p v2 q v3 : List Nat) (code : Nat)
    (h1 : readUint24LengthPrefixed buf = some (v, []))
    (h2 : readUint16LengthPrefixed v = some (c, v1))
    (h3 : UnpackCode c = .ok code)
    (h4 : readUint16LengthPrefixed v1 = some (p, v2))
    (h5 : readUint16LengthPrefixed v2 = some (q, v3))
    (h6 : validCode code = .ok ()) :
    decodeKeypair buf = .ok { Code := code, Name := codesLookup code,
                              Public := q, PublicLength := q.length,
                              Private := p, PrivateLength := p.length } := by
  simp [decodeKeypair, h1, h2, h3, h4, h5, h6]

lemma decode_encodeKeypair (priv pub : List Nat) (code : Nat)
    (hc : validCode code = .ok ()) (hp : priv.length ≤ 65535)
    (hq : pub.length ≤ 65535) :
    ∃ m, encodeKeypair priv pub code = some m ∧
      m.length = 10 + priv.length + pub.length ∧
      decodeKeypair m = .ok { Code := code, Name := codesLookup code,
                              Public := pub, PublicLength := pub.length,
                              Private := priv,
                              PrivateLength := priv.length } := by
  have hc128 := validCode_lt hc
  have h1 : addU16LengthPrefixed (PackCode code) = some (u16be 1 ++ [code]) := by
    rw [packCode_small hc128]
    simp [addU16LengthPrefixed]
  have h2 : addU16LengthPrefixed priv = some (u16be priv.length ++ priv) := by
    rw [addU16LengthPrefixed, if_pos (by omega)]
  have h3 : addU16LengthPrefixed pub = some (u16be pub.length ++ pub) := by
    rw [addU16LengthPrefixed, if_pos (by omega)]
  set inner : List Nat :=
    u16be 1 ++ ([code] ++ (u16be priv.length ++ (priv ++
      (u16be pub.length ++ pub)))) with hinner
  have hlen : inner.length = 7 + priv.length + pub.length := by
    simp [hinner, u16be]
    omega
  have h4 : addU24LengthPrefixed inner = some (u24be inner.length ++ inner) := by
    rw [addU24LengthPrefixed, if_pos (by omega)]
  refine ⟨u24be inner.length ++ inner, ?_, ?_, ?_⟩
  · simp only [encodeKeypair, h1, h2, h3, List.append_assoc]
    rw [← hinner]
    exact h4
  · simp only [List.length_append, hlen, u24be, List.length_cons,
      List.length_nil]
    omega
  · refine decodeKeypair_ok_of _ inner [code]
      (u16be priv.length ++ (priv ++ (u16be pub.length ++ pub))) priv
      (u16be pub.length ++ pub) pub [] code ?_ ?_
      (unpackCode_single hc128) ?_ ?_ hc
    · have := readU24_frame inner [] (by omega)
      simpa using this
    · have := readU16_frame [code]
        (u16be priv.length ++ (priv ++ (u16be pub.length ++ pub)))
        (by simp)
      simpa [hinner] using this
    · have := readU16_frame priv (u16be pub.length ++ pub) (by omega)
      simpa [List.append_assoc] using this
    · have := readU16_frame pub [] (by omega)
      simpa using this

lemma uvarintGo_cont (buf : List Nat) (hb : ∀ b ∈ buf, 128 ≤ b) :
    ∀ (rest : List Nat) (i s x : Nat), i + buf.length ≤ 10 →
    ∃ s2 x2, uvarintGo (buf ++ rest) i s x =
      uvarintGo rest (i + buf.length) s2 x2 := by
  induction buf with
  | nil =>
    intro rest i s x _
    exact ⟨s, x, by simp⟩
  | cons b bs ih =>
    intro rest i s x hlen
    have hbge : 128 ≤ b := hb b (by simp)
    have hbs : ∀ y ∈ bs, 128 ≤ y := fun y hy => hb y (by simp [hy])
    simp only [List.length_cons] at hlen
    have hi : ¬ i = 10 := by omega
    have hblt : ¬ b < 128 := by omega
    obtain ⟨s2, x2, h⟩ :=
      ih hbs rest (i + 1) (s + 7) (x + b % 128 * 2 ^ s) (by omega)
    refine ⟨s2, x2, ?_⟩
    simp only [List.cons_append, uvarintGo, List.length_cons]
    rw [if_neg hi, if_neg hblt,
      show i + (bs.length + 1) = i + 1 + bs.length from by omega]
    exact h

lemma encodeKeypair_none_priv {priv pub : List Nat} {code : Nat}
    (h : addU16LengthPrefixed priv = none) :
    encodeKeypair priv pub code = none := by
  rcases h1 : addU16LengthPrefixed (PackCode code) with _ | f1 <;>
    rcases h3 : addU16LengthPrefixed pub with _ | f3 <;>
      simp [encodeKeypair, h1, h, h3]

lemma encodeKeypair_none_pub {priv pub : List Nat} {code : Nat}
    (h : addU16LengthPrefixed pub = none) :
    encodeKeypair priv pub code = none := by
  rcases h1 : addU16LengthPrefixed (PackCode code) with _ | f1 <;>
    rcases h2 : addU16LengthPrefixed priv with _ | f2 <;>
      simp [encodeKeypair, h1, h2, h]

lemma Encode_panicked_of {priv pub : List Nat} {code : Nat}
    (hv : validCode code = .ok ())
    (h : encodeKeypair priv pub code = none) :
    Encode priv pub code = .panicked := by
  simp only [Encode, hv, h]

lemma putUvarint_length_le :
    ∀ k n : Nat, 1 ≤ k → n < 2 ^ (7 * k) → (putUvarint n).length ≤ k := by
  intro k
  induction k with
  | zero =>
    intro n h1 _
    omega
  | succ k ih =>
    intro n _ hn
    by_cases h : n < 128
    · rw [putUvarint, dif_pos h]
      simp
    · rw [putUvarint, dif_neg h]
      simp only [List.length_cons]
      have hk : 1 ≤ k := by
        by_contra hk0
        have hkz : k = 0 := by omega
        subst hkz
        norm_num at hn
        omega
      have hpow : (2 : Nat) ^ (7 * (k + 1)) = 2 ^ (7 * k) * 128 := by
        rw [show 7 * (k + 1) = 7 * k + 7 from by ring, pow_add]
        norm_num
      have hdiv : n / 128 < 2 ^ (7 * k) := by
        apply Nat.div_lt_of_lt_mul
        rw [hpow] at hn
        omega
      have := ih (n / 128) hk hdiv
      omega

lemma uvarintGo_putUvarint :
    ∀ n i s x : Nat, i + (putUvarint n).length ≤ 9 →
    uvarintGo (putUvarint n) i s x =
      .ok (x + n * 2 ^ s) (i + (putUvarint n).length) := by
  intro n
  induction n using Nat.strong_induction_on with
  | _ n ih =>
    intro i s x hle
    by_cases h : n < 128
    · rw [putUvarint, dif_pos h] at hle ⊢
      simp only [List.length_singleton] at hle ⊢
      simp only [uvarintGo]
      rw [if_neg (by omega), if_pos h,
        if_neg (by omega : ¬(i = 9 ∧ 1 < n))]
    · rw [putUvarint, dif_neg h] at hle ⊢
      simp only [List.length_cons] at hle ⊢
      simp only [uvarintGo]
      rw [if_neg (by omega), if_neg (by omega : ¬ n % 128 + 128 < 128)]
      have hrec := ih (n / 128) (Nat.div_lt_self (by omega) (by norm_num))
        (i + 1) (s + 7) (x + (n % 128 + 128) % 128 * 2 ^ s) (by omega)
      rw [hrec]
      have hmod : (n % 128 + 128) % 128 = n % 128 := by omega
      rw [hmod]
      have h27 : (2 : Nat) ^ (s + 7) = 2 ^ s * 128 := by
        rw [pow_add]
        norm_num
      have hval : x + n % 128 * 2 ^ s + n / 128 * 2 ^ (s + 7) =
          x + n * 2 ^ s := by
        rw [h27]
        have hsplit : n % 128 + n / 128 * 128 = n := by omega
        calc x + n % 128 * 2 ^ s + n / 128 * (2 ^ s * 128)
            = x + (n % 128 + n / 128 * 128) * 2 ^ s := by ring
          _ = x + n * 2 ^ s := by rw [hsplit]
      rw [hval]
      congr 1
      omega

lemma unpackLen_packLen (n : Nat) (hn : n < 2 ^ 56) :
    UnpackLen (PackLen n) = .ok (n : Int) := by
  have hlen : (putUvarint n).length ≤ 8 := by
    apply putUvarint_length_le 8 n (by norm_num)
    rw [show 7 * 8 = 56 from by norm_num]
    exact hn
  have hu := uvarintGo_putUvarint n 0 0 0 (by omega)
  simp only [pow_zero, mul_one, Nat.zero_add] at hu
  rw [PackLen, UnpackLen, uvarint, hu]
  simp only [Nat.mod_eq_of_lt (show n < 2 ^ 64 by omega)]
  rw [if_pos (by omega)]

lemma le_childrenWireSize (children : List Keypair) :
    12 * children.length ≤ childrenWireSize children := by
  induction children with
  | nil => simp [childrenWireSize]
  | cons k ks ih =>
    simp only [childrenWireSize, List.map_cons, List.sum_cons,
      List.length_cons] at ih ⊢
    omega

lemma readChildren_add (m : Nat) :
    ∀ (j : Nat) (v : List Nat) (kps : List Keypair) (v4 : List Nat),
    readChildren j v = .ok (kps, v4) →
    readChildren (j + m) v =
      (match readChildren m v4 with
       | .error e => .error e
       | .ok (kps2, v5) => .ok (kps ++ kps2, v5)) := by
  intro j
  induction j with
  | zero =>
    intro v kps v4 h
    simp only [readChildren, Except.ok.injEq, Prod.mk.injEq] at h
    obtain ⟨h1, h2⟩ := h
    subst h1
    subst h2
    rw [Nat.zero_add]
    cases hm : readChildren m v with
    | error e => simp [hm]
    | ok pr =>
      obtain ⟨kps2, v5⟩ := pr
      simp [hm]
  | succ j ih =>
    intro v kps v4 h
    simp only [readChildren] at h
    cases h16 : readUint16LengthPrefixed v with
    | none => simp [h16] at h
    | some pr =>
      obtain ⟨c1, v1⟩ := pr
      simp only [h16] at h
      cases hdk : decodeKeypair c1 with
      | error e => simp [hdk] at h
      | ok kp =>
        simp only [hdk] at h
        cases hrc : readChildren j v1 with
        | error e => simp [hrc] at h
        | ok pr2 =>
          obtain ⟨kps1, v4x⟩ := pr2
          simp only [hrc, Except.ok.injEq, Prod.mk.injEq] at h
          obtain ⟨h1, h2⟩ := h
          subst h1
          subst h2
          rw [show j + 1 + m = (j + m) + 1 from by omega]
          simp only [readChildren, h16, hdk, ih v1 kps1 v4x hrc]
          cases hm : readChildren m v4x with
          | error e => simp [hm]
          | ok pr3 =>
            obtain ⟨kps2, v5⟩ := pr3
            simp [hm]

lemma keypair_eta {k : Keypair} (h1 : k.Name = codesLookup k.Code)
    (h2 : k.PrivateLength = k.Private.length)
    (h3 : k.PublicLength = k.Public.length) :
    ({ Code := k.Code, Name := codesLookup k.Code, Public := k.Public,
       PublicLength := k.Public.length, Private := k.Private,
       PrivateLength := k.Private.length } : Keypair) = k := by
  cases k
  simp_all

lemma encodeChildren_ok (children : List Keypair)
    (h : ∀ k ∈ children, wellFormedChild k) :
    ∃ bs, encodeChildren children = some bs ∧
      bs.length = childrenWireSize children ∧
      ∀ rest, readChildren children.length (bs ++ rest) =
        .ok (children, rest) := by
  induction children with
  | nil =>
    exact ⟨[], rfl, by simp [childrenWireSize],
      fun rest => by simp [readChildren]⟩
  | cons k ks ih =>
    obtain ⟨hkv, hkn, hkpl, hkql, hksum⟩ := h k (by simp)
    obtain ⟨bs, hbs, hbslen, hread⟩ := ih (fun y hy => h y (by simp [hy]))
    obtain ⟨cf, hcf, hcflen, hcfdec⟩ :=
      decode_encodeKeypair k.Private k.Public k.Code hkv (by omega)
        (by omega)
    have hcf16 : addU16LengthPrefixed cf = some (u16be cf.length ++ cf) := by
      rw [addU16LengthPrefixed, if_pos (by omega)]
    refine ⟨(u16be cf.length ++ cf) ++ bs, ?_, ?_, ?_⟩
    · simp only [encodeChildren, hcf, hcf16, hbs]
    · simp only [List.length_append, List.length_cons, u16be,
        List.length_nil, childrenWireSize, List.map_cons, List.sum_cons]
      simp only [childrenWireSize] at hbslen
      omega
    · intro rest
      have hshape : ((u16be cf.length ++ cf) ++ bs) ++ rest =
          u16be cf.length ++ (cf ++ (bs ++ rest)) := by
        simp [List.append_assoc]
      rw [List.length_cons, hshape, readChildren,
        readU16_frame cf (bs ++ rest) (by omega)]
      simp only [hcfdec, hread rest, keypair_eta hkn hkpl hkql]

lemma decodeRecursivekey_ok_of (buf v c v1 mstr v2 nf v3 v4 : List Nat)
    (code : Nat) (k : Int) (kps : List Keypair)
    (h1 : readUint24LengthPrefixed buf = some (v, []))
    (h2 : readUint16LengthPrefixed v = some (c, v1))
    (h3 : UnpackCode c = .ok code)
    (h4 : readUint16LengthPrefixed v1 = some (mstr, v2))
    (h5 : readUint16LengthPrefixed v2 = some (nf, v3))
    (h6 : UnpackLen nf = .ok k)
    (h7 : readChildren k.toNat v3 = .ok (kps, v4))
    (h8 : validCode code = .ok ()) :
    decodeRecursivekey buf = .ok { Code := code, Name := codesLookup code,
                                   Master := mstr,
                                   MasterLength := mstr.length,
                                   ChildrenNum := k,
                                   Children := kps } := by
  simp [decodeRecursivekey, h1, h2, h3, h4, h5, h6, h7, h8]

lemma recursive_roundtrip (master : List Nat) (children : List Keypair)
    (code : Nat) (hc : validCode code = .ok ())
    (hm : master.length ≤ 65535)
    (hch : ∀ k ∈ children, wellFormedChild k)
    (hframe : 7 + master.length + (PackLen children.length).length +
      childrenWireSize children ≤ 16777215) :
    ∃ m, encodeRecursivekey master children code = some m ∧
      decodeRecursivekey m = .ok { Code := code,
                                   Name := codesLookup code,
                                   Master := master,
                                   MasterLength := master.length,
                                   ChildrenNum := (children.length : Int),
                                   Children := children } := by
  have hc128 := validCode_lt hc
  have hnum : children.length < 2 ^ 56 := by
    have h12 := le_childrenWireSize children
    omega
  have hlbu := unpackLen_packLen children.length hnum
  have hlb : (PackLen children.length).length ≤ 8 := by
    rw [PackLen]
    apply putUvarint_length_le 8 children.length (by norm_num)
    rw [show 7 * 8 = 56 from by norm_num]
    exact hnum
  obtain ⟨bs, hbs, hbslen, hread⟩ := encodeChildren_ok children hch
  have h1 : addU16LengthPrefixed (PackCode code) =
      some (u16be 1 ++ [code]) := by
    rw [packCode_small hc128]
    simp [addU16LengthPrefixed]
  have h2 : addU16LengthPrefixed master =
      some (u16be master.length ++ master) := by
    rw [addU16LengthPrefixed, if_pos (by omega)]
  have h3 : addU16LengthPrefixed (PackLen children.length) =
      some (u16be (PackLen children.length).length ++
        PackLen children.length) := by
    rw [addU16LengthPrefixed, if_pos (by omega)]
  set lb : List Nat := PackLen children.length with hlbdef
  set inner : List Nat := u16be 1 ++ ([code] ++ (u16be master.length ++
    (master ++ (u16be lb.length ++ (lb ++ bs))))) with hinner
  have hilen : inner.length =
      7 + master.length + lb.length + bs.length := by
    simp [hinner, u16be]
    omega
  have h5 : addU24LengthPrefixed inner =
      some (u24be inner.length ++ inner) := by
    rw [addU24LengthPrefixed, if_pos (by omega)]
  refine ⟨u24be inner.length ++ inner, ?_, ?_⟩
  · simp only [encodeRecursivekey, h1, h2, h3, hbs, List.append_assoc]
    rw [← hinner]
    exact h5
  · have h7 : readChildren ((children.length : Int)).toNat bs =
        .ok (children, []) := by
      rw [Int.toNat_natCast]
      have := hread []
      rwa [List.append_nil] at this
    refine decodeRecursivekey_ok_of _ inner [code]
      (u16be master.length ++ (master ++ (u16be lb.length ++ (lb ++ bs))))
      master (u16be lb.length ++ (lb ++ bs)) lb bs [] code
      ((children.length : Int)) children ?_ ?_
      (unpackCode_single hc128) ?_ ?_ hlbu h7 hc
    · have := readU24_frame inner [] (by omega)
      simpa using this
    · have := readU16_frame [code] (u16be master.length ++
        (master ++ (u16be lb.length ++ (lb ++ bs)))) (by simp)
      simpa [hinner] using this
    · exact readU16_frame master (u16be lb.length ++ (lb ++ bs)) (by omega)
    · exact readU16_frame lb bs (by omega)

/-! ## Claim theorems -/

/-- C1: for every private and public byte sequence and every code in the
flat cipher registry, with each length at most 65535, decoding the
encoding succeeds and yields a Keypair whose Code is the input code,
whose Name is the registry lookup of the code, whose Private and Public
equal the inputs, and whose length fields equal the actual lengths. -/
theorem C1_roundtrip (priv pub : List Nat) (code : Nat)
    (hc : validCode code = .ok ()) (hp : priv.length ≤ 65535)
    (hq : pub.length ≤ 65535) :
    ∃ m, Encode priv pub code = .ok m ∧
      Decode m = .ok { Code := code, Name := codesLookup code,
                       Public := pub, PublicLength := pub.length,
                       Private := priv, PrivateLength := priv.length } := by
  obtain ⟨m, he, _, hd⟩ := decode_encodeKeypair priv pub code hc hp hq
  refine ⟨m, ?_, hd⟩
  simp only [Encode, hc, he]

/-- Witness for C1 at a concrete registered code and small keys. -/
theorem C1_witness :
    validCode 17 = .ok () ∧ ([1, 2] : List Nat).length ≤ 65535 ∧
    ([3] : List Nat).length ≤ 65535 ∧
    (∃ m, Encode [1, 2] [3] 17 = .ok m ∧
      Decode m = .ok { Code := 17, Name := codesLookup 17,
                       Public := [3], PublicLength := ([3] : List Nat).length,
                       Private := [1, 2],
                       PrivateLength := ([1, 2] : List Nat).length }) :=
  ⟨by decide, by decide, by decide,
   C1_roundtrip [1, 2] [3] 17 (by decide) (by decide) (by decide)⟩

/-- C2 counterexample: at the concrete valid cipher code 0x11 (ED_25519,
registered in the flat registry) with empty master and no children,
`RecursiveEncode` returns the UnknownCode error instead of a frame, so
`RecursiveDecode (RecursiveEncode master children code)` cannot succeed
for any code: the recursive registry consulted by the encoder is empty. -/
theorem C2_counterexample :
    validCode 17 = .ok () ∧
    RecursiveEncode [] [] 17 = .err .unknownCode := by
  decide

/-- C2 (amended): `RecursiveEncode` itself fails with UnknownCode on
every input because the recursive registry is empty, so the claimed
round-trip never runs; it holds one level down: for every master and
every finite ordered list of well-formed children (registered codes,
consistent derived fields, key material within the 16-bit field limits),
whenever the whole frame fits its 24-bit length prefix — the exact
inner-frame size is `7 + len(master) + len(varint(children count)) +
childrenWireSize` — `decodeRecursivekey` of `encodeRecursivekey`
reproduces master, code, childrenNum = number of children, and the
children in order with every field intact. -/
theorem C2_amended (master : List Nat) (children : List Keypair)
    (code : Nat) (hc : validCode code = .ok ())
    (hm : master.length ≤ 65535)
    (hch : ∀ k ∈ children, wellFormedChild k)
    (hframe : 7 + master.length + (PackLen children.length).length +
      childrenWireSize children ≤ 16777215) :
    RecursiveEncode master children code = .err .unknownCode ∧
    ∃ m, encodeRecursivekey master children code = some m ∧
      RecursiveDecode m = .ok { Code := code,
                                Name := codesLookup code,
                                Master := master,
                                MasterLength := master.length,
                                ChildrenNum := (children.length : Int),
                                Children := children } :=
  ⟨rfl, recursive_roundtrip master children code hc hm hch hframe⟩

/-- Witness for C2 (amended): one master byte and one well-formed
ED_25519 child under the BIP_32 code round-trip through the inner
encoder and decoder. -/
theorem C2_witness :
    validCode 18 = .ok () ∧
    (∀ k ∈ [({ Code := 17, Name := "ed25519", Public := [9],
               PublicLength := 1, Private := [7, 8],
               PrivateLength := 2 } : Keypair)], wellFormedChild k) ∧
    (RecursiveEncode [5] [{ Code := 17, Name := "ed25519", Public := [9],
                            PublicLength := 1, Private := [7, 8],
                            PrivateLength := 2 }] 18 = .err .unknownCode ∧
      ∃ m, encodeRecursivekey [5]
          [{ Code := 17, Name := "ed25519", Public := [9],
             PublicLength := 1, Private := [7, 8],
             PrivateLength := 2 }] 18 = some m ∧
        RecursiveDecode m = .ok
          { Code := 18, Name := codesLookup 18, Master := [5],
            MasterLength := ([5] : List Nat).length,
            ChildrenNum := (([({ Code := 17, Name := "ed25519",
                                 Public := [9], PublicLength := 1,
                                 Private := [7, 8],
                                 PrivateLength := 2 } : Keypair)]).length
                              : Int),
            Children := [{ Code := 17, Name := "ed25519", Public := [9],
                           PublicLength := 1, Private := [7, 8],
                           PrivateLength := 2 }] }) :=
  ⟨by decide, by decide,
   C2_amended [5] [{ Code := 17, Name := "ed25519", Public := [9],
                     PublicLength := 1, Private := [7, 8],
                     PrivateLength := 2 }] 18
     (by decide) (by decide) (by decide)
     (by
       have h1 : PackLen 1 = [1] := by
         rw [PackLen, putUvarint, dif_pos (by norm_num)]
       show 7 + ([5] : List Nat).length + (PackLen 1).length +
         childrenWireSize [{ Code := 17, Name := "ed25519", Public := [9],
                             PublicLength := 1, Private := [7, 8],
                             PrivateLength := 2 }] ≤ 16777215
       rw [h1]
       decide)⟩

/-- C9: `decodeRecursivekey` validates the decoded code against the flat
registry (`validCode`), not the recursive one: EVERY structurally
well-formed Multirecursivekey frame — any buffer whose reader chain
parses, whatever the code varint encoding (minimal or not) and however
many children it carries — whose code is in the flat registry is
accepted by `RecursiveDecode`, even though `RecursiveEncode` returns the
UnknownCode error on every input and so can never produce any frame.
Decode accepts codes that encode rejects. -/
theorem C9_decode_accepts_encode_rejects
    (buf v c v1 mstr v2 nf v3 v4 : List Nat)
    (code : Nat) (k : Int) (kps : List Keypair)
    (h1 : readUint24LengthPrefixed buf = some (v, []))
    (h2 : readUint16LengthPrefixed v = some (c, v1))
    (h3 : UnpackCode c = .ok code)
    (h4 : readUint16LengthPrefixed v1 = some (mstr, v2))
    (h5 : readUint16LengthPrefixed v2 = some (nf, v3))
    (h6 : UnpackLen nf = .ok k)
    (h7 : readChildren k.toNat v3 = .ok (kps, v4))
    (h8 : validCode code = .ok ()) :
    validRecursiveCode code = .error .unknownCode ∧
    (∀ (master : List Nat) (children : List Keypair) (c2 : Nat),
      RecursiveEncode master children c2 = .err .unknownCode) ∧
    RecursiveDecode buf = .ok { Code := code, Name := codesLookup code,
                                Master := mstr,
                                MasterLength := mstr.length,
                                ChildrenNum := k, Children := kps } :=
  ⟨rfl, fun _ _ _ => rfl,
   decodeRecursivekey_ok_of buf v c v1 mstr v2 nf v3 v4 code k kps
     h1 h2 h3 h4 h5 h6 h7 h8⟩

/-- Witness for C9: a hand-constructed frame whose code field holds the
NON-minimal two-byte varint [0x91, 0x00] for the flat code 0x11 — a
frame `encodeRecursivekey` would never emit — with a one-byte master and
one identity child, accepted by `RecursiveDecode`. -/
theorem C9_witness :
    validRecursiveCode 17 = .error .unknownCode ∧
    (∀ (master : List Nat) (children : List Keypair) (c2 : Nat),
      RecursiveEncode master children c2 = .err .unknownCode) ∧
    RecursiveDecode [0, 0, 22, 0, 2, 145, 0, 0, 1, 7, 0, 1, 1, 0, 10,
        0, 0, 7, 0, 1, 0, 0, 0, 0, 0] =
      .ok { Code := 17, Name := codesLookup 17, Master := [7],
            MasterLength := ([7] : List Nat).length, ChildrenNum := 1,
            Children := [{ Code := 0, Name := "identity", Public := [],
                           PublicLength := 0, Private := [],
                           PrivateLength := 0 }] } :=
  C9_decode_accepts_encode_rejects
    [0, 0, 22, 0, 2, 145, 0, 0, 1, 7, 0, 1, 1, 0, 10,
     0, 0, 7, 0, 1, 0, 0, 0, 0, 0]
    [0, 2, 145, 0, 0, 1, 7, 0, 1, 1, 0, 10, 0, 0, 7, 0, 1, 0, 0, 0, 0, 0]
    [145, 0]
    [0, 1, 7, 0, 1, 1, 0, 10, 0, 0, 7, 0, 1, 0, 0, 0, 0, 0]
    [7]
    [0, 1, 1, 0, 10, 0, 0, 7, 0, 1, 0, 0, 0, 0, 0]
    [1]
    [0, 10, 0, 0, 7, 0, 1, 0, 0, 0, 0, 0]
    []
    17 1
    [{ Code := 0, Name := "identity", Public := [], PublicLength := 0,
       Private := [], PrivateLength := 0 }]
    (by decide) (by decide) (by decide) (by decide) (by decide)
    (by decide) (by decide) (by decide)

/-- C3: the recursive cipher registry is empty, so `validRecursiveCode`
fails with the UnknownCode error on every code, and consequently
`RecursiveEncode` fails with the UnknownCode error on every input. -/
theorem C3_recursive_registry_empty :
    (∀ code : Nat, validRecursiveCode code = .error .unknownCode) ∧
    (∀ (master : List Nat) (children : List Keypair) (code : Nat),
      RecursiveEncode master children code = .err .unknownCode) := by
  exact ⟨fun code => rfl, fun master children code => rfl⟩

/-- C4 counterexample: with a 65536-byte private key and a registered
code, `Encode` panics (modelled `.panicked`, from the `panic(err)` in
`encodeKeypair`) instead of returning an error to its caller. -/
theorem C4_counterexample :
    Encode (List.replicate 65536 0) [] 0 = .panicked := by
  have h2 : addU16LengthPrefixed (List.replicate 65536 0) = none := by
    rw [addU16LengthPrefixed]
    simp only [List.length_replicate]
    rw [if_neg (by omega)]
  exact Encode_panicked_of (by decide) (encodeKeypair_none_priv h2)

/-- C4 (amended): when a private or public payload exceeds 65535 bytes
the encode operation fails by PANICKING inside `encodeKeypair` (the
cryptobyte builder error is raised with `panic(err)`), not by returning
an error to the caller; it does not silently truncate.  Likewise
`encodeRecursivekey` panics on an oversized master key. -/
theorem C4_amended :
    (∀ (priv pub : List Nat) (code : Nat), validCode code = .ok () →
      65535 < priv.length ∨ 65535 < pub.length →
      Encode priv pub code = .panicked) ∧
    (∀ (master : List Nat) (children : List Keypair) (code : Nat),
      65535 < master.length →
      encodeRecursivekey master children code = none) := by
  constructor
  · intro priv pub code hc hlong
    refine Encode_panicked_of hc ?_
    rcases hlong with hl | hl
    · exact encodeKeypair_none_priv
        (by rw [addU16LengthPrefixed, if_neg (by omega)])
    · exact encodeKeypair_none_pub
        (by rw [addU16LengthPrefixed, if_neg (by omega)])
  · intro master children code hlen
    have h2 : addU16LengthPrefixed master = none := by
      rw [addU16LengthPrefixed, if_neg (by omega)]
    rcases h1 : addU16LengthPrefixed (PackCode code) with _ | f1
    · simp only [encodeRecursivekey, h1]
    · simp only [encodeRecursivekey, h1, h2]

/-- Witness for C4 (amended) at concrete oversized inputs. -/
theorem C4_witness :
    Encode [] (List.replicate 65536 1) 17 = .panicked ∧
    encodeRecursivekey (List.replicate 65536 0) [] 0 = none :=
  ⟨C4_amended.1 [] (List.replicate 65536 1) 17 (by decide)
    (Or.inr (by simp only [List.length_replicate]; decide)),
   C4_amended.2 (List.replicate 65536 0) [] 0
    (by simp only [List.length_replicate]; decide)⟩

/-- C10: a name absent from the Names registry (such as "rsa": the
registry key for the RSA code is "res") yields the Go map zero value 0,
which is the registered IDENTITY code, so `EncodeName` does not fail
with UnknownCode: it succeeds and encodes under the IDENTITY cipher. -/
theorem C10_unknown_name_uses_identity (name : String) (priv pub : List Nat)
    (hname : Names.find? (fun p => p.1 = name) = none)
    (hp : priv.length ≤ 65535) (hq : pub.length ≤ 65535) :
    namesLookup name = IDENTITY ∧
    EncodeName priv pub name = Encode priv pub IDENTITY ∧
    ∃ m, EncodeName priv pub name = .ok m ∧
      Decode m = .ok { Code := IDENTITY, Name := "identity",
                       Public := pub, PublicLength := pub.length,
                       Private := priv, PrivateLength := priv.length } := by
  have hlook : namesLookup name = IDENTITY := by
    simp [namesLookup, hname, IDENTITY]
  have hv : validCode IDENTITY = .ok () := by decide
  obtain ⟨m, he, _, hd⟩ := decode_encodeKeypair priv pub IDENTITY hv hp hq
  have hname2 : codesLookup IDENTITY = "identity" := by decide
  rw [hname2] at hd
  refine ⟨hlook, by simp [EncodeName, hlook], m, ?_, hd⟩
  simp only [EncodeName, hlook, Encode, hv, he]

/-- C5: decoding rejects, with the InvalidMultikeypair error, every
buffer whose outer 24-bit length prefix is truncated or inconsistent
(part 1), every buffer with trailing bytes after the declared outer
frame (part 2), and every buffer in which a 16-bit field length prefix
is truncated or exceeds the remaining input — at the code field
(part 3), the private/master field (part 4), the public/children-count
field (part 5) or a child field at any position, after any number of
successfully parsed children, which also covers a declared children
count exceeding the fields present (part 6).  Both `Decode` and
`RecursiveDecode` are total functions here: no panic is modelled
because the source decoders have no panicking path. -/
theorem C5_rejects_malformed :
    (∀ buf : List Nat, readUint24LengthPrefixed buf = none →
      Decode buf = .error .invalidMultikeypair ∧
      RecursiveDecode buf = .error .invalidMultikeypair) ∧
    (∀ buf v r : List Nat, readUint24LengthPrefixed buf = some (v, r) →
      r ≠ [] →
      Decode buf = .error .invalidMultikeypair ∧
      RecursiveDecode buf = .error .invalidMultikeypair) ∧
    (∀ buf v : List Nat, readUint24LengthPrefixed buf = some (v, []) →
      readUint16LengthPrefixed v = none →
      Decode buf = .error .invalidMultikeypair ∧
      RecursiveDecode buf = .error .invalidMultikeypair) ∧
    (∀ (buf v c v1 : List Nat) (code : Nat),
      readUint24LengthPrefixed buf = some (v, []) →
      readUint16LengthPrefixed v = some (c, v1) →
      UnpackCode c = .ok code →
      readUint16LengthPrefixed v1 = none →
      Decode buf = .error .invalidMultikeypair ∧
      RecursiveDecode buf = .error .invalidMultikeypair) ∧
    (∀ (buf v c v1 p v2 : List Nat) (code : Nat),
      readUint24LengthPrefixed buf = some (v, []) →
      readUint16LengthPrefixed v = some (c, v1) →
      UnpackCode c = .ok code →
      readUint16LengthPrefixed v1 = some (p, v2) →
      readUint16LengthPrefixed v2 = none →
      Decode buf = .error .invalidMultikeypair ∧
      RecursiveDecode buf = .error .invalidMultikeypair) ∧
    (∀ (buf v c v1 p v2 nf v3 v4 : List Nat) (code : Nat) (k : Int)
        (kps : List Keypair) (j : Nat),
      readUint24LengthPrefixed buf = some (v, []) →
      readUint16LengthPrefixed v = some (c, v1) →
      UnpackCode c = .ok code →
      readUint16LengthPrefixed v1 = some (p, v2) →
      readUint16LengthPrefixed v2 = some (nf, v3) →
      UnpackLen nf = .ok k →
      readChildren j v3 = .ok (kps, v4) →
      j < k.toNat →
      readUint16LengthPrefixed v4 = none →
      RecursiveDecode buf = .error .invalidMultikeypair) := by
  refine ⟨?_, ?_, ?_, ?_, ?_, ?_⟩
  · intro buf h1
    exact ⟨by simp [Decode, decodeKeypair, h1],
           by simp [RecursiveDecode, decodeRecursivekey, h1]⟩
  · intro buf v r h1 hr
    exact ⟨by simp [Decode, decodeKeypair, h1, hr],
           by simp [RecursiveDecode, decodeRecursivekey, h1, hr]⟩
  · intro buf v h1 h2
    exact ⟨by simp [Decode, decodeKeypair, h1, h2],
           by simp [RecursiveDecode, decodeRecursivekey, h1, h2]⟩
  · intro buf v c v1 code h1 h2 h3 h4
    exact ⟨by simp [Decode, decodeKeypair, h1, h2, h3, h4],
           by simp [RecursiveDecode, decodeRecursivekey, h1, h2, h3, h4]⟩
  · intro buf v c v1 p v2 code h1 h2 h3 h4 h5
    exact ⟨by simp [Decode, decodeKeypair, h1, h2, h3, h4, h5],
           by simp [RecursiveDecode, decodeRecursivekey, h1, h2, h3, h4, h5]⟩
  · intro buf v c v1 p v2 nf v3 v4 code k kps j h1 h2 h3 h4 h5 h6 h7 hj
      hfail
    have hsplit : k.toNat = j + (k.toNat - j - 1 + 1) := by omega
    have hnext : readChildren (k.toNat - j - 1 + 1) v4 =
        .error .invalidMultikeypair := by
      simp only [readChildren, hfail]
    have hrc : readChildren k.toNat v3 = .error .invalidMultikeypair := by
      rw [hsplit, readChildren_add (k.toNat - j - 1 + 1) j v3 kps v4 h7,
        hnext]
    simp [RecursiveDecode, decodeRecursivekey, h1, h2, h3, h4, h5, h6, hrc]

/-- Witness for C5: one concrete malformed buffer per rejection class
(truncated outer prefix, trailing byte, truncated code field, missing
private field, missing public/children-count field, and a frame whose
declared children count is 2 but which contains only one child: the
second child field read fails after the first child parses). -/
theorem C5_witness :
    (Decode [0, 0] = .error .invalidMultikeypair ∧
      RecursiveDecode [0, 0] = .error .invalidMultikeypair) ∧
    (Decode [0, 0, 0, 7] = .error .invalidMultikeypair ∧
      RecursiveDecode [0, 0, 0, 7] = .error .invalidMultikeypair) ∧
    (Decode [0, 0, 1, 5] = .error .invalidMultikeypair ∧
      RecursiveDecode [0, 0, 1, 5] = .error .invalidMultikeypair) ∧
    (Decode [0, 0, 3, 0, 1, 0] = .error .invalidMultikeypair ∧
      RecursiveDecode [0, 0, 3, 0, 1, 0] = .error .invalidMultikeypair) ∧
    (Decode [0, 0, 5, 0, 1, 0, 0, 0] = .error .invalidMultikeypair ∧
      RecursiveDecode [0, 0, 5, 0, 1, 0, 0, 0] =
        .error .invalidMultikeypair) ∧
    RecursiveDecode [0, 0, 20, 0, 1, 0, 0, 0, 0, 1, 2, 0, 10,
        0, 0, 7, 0, 1, 0, 0, 0, 0, 0] =
      .error .invalidMultikeypair :=
  ⟨C5_rejects_malformed.1 [0, 0] (by decide),
   C5_rejects_malformed.2.1 [0, 0, 0, 7] [] [7] (by decide) (by decide),
   C5_rejects_malformed.2.2.1 [0, 0, 1, 5] [5] (by decide) (by decide),
   C5_rejects_malformed.2.2.2.1 [0, 0, 3, 0, 1, 0] [0, 1, 0] [0] [] 0
     (by decide) (by decide) (by decide) (by decide),
   C5_rejects_malformed.2.2.2.2.1 [0, 0, 5, 0, 1, 0, 0, 0]
     [0, 1, 0, 0, 0] [0] [0, 0] [] [] 0
     (by decide) (by decide) (by decide) (by decide) (by decide),
   C5_rejects_malformed.2.2.2.2.2
     [0, 0, 20, 0, 1, 0, 0, 0, 0, 1, 2, 0, 10, 0, 0, 7, 0, 1, 0, 0, 0,
      0, 0]
     [0, 1, 0, 0, 0, 0, 1, 2, 0, 10, 0, 0, 7, 0, 1, 0, 0, 0, 0, 0]
     [0]
     [0, 0, 0, 1, 2, 0, 10, 0, 0, 7, 0, 1, 0, 0, 0, 0, 0]
     []
     [0, 1, 2, 0, 10, 0, 0, 7, 0, 1, 0, 0, 0, 0, 0]
     [2]
     [0, 10, 0, 0, 7, 0, 1, 0, 0, 0, 0, 0]
     []
     0 2
     [{ Code := 0, Name := "identity", Public := [], PublicLength := 0,
        Private := [], PrivateLength := 0 }]
     1
     (by decide) (by decide) (by decide) (by decide) (by decide)
     (by decide) (by decide) (by decide) (by decide)⟩

/-- C6 counterexample: a buffer whose well-formed outer frame contains
FOUR 16-bit length-prefixed fields (shown by the reader chain) is not
rejected: `Decode` succeeds, returning the keypair assembled from the
first three fields.  The decoder never checks that the frame is empty
after the third field. -/
theorem C6_counterexample :
    readUint24LengthPrefixed [0, 0, 9, 0, 1, 0, 0, 0, 0, 0, 0, 0] =
      some ([0, 1, 0, 0, 0, 0, 0, 0, 0], []) ∧
    readUint16LengthPrefixed [0, 1, 0, 0, 0, 0, 0, 0, 0] =
      some ([0], [0, 0, 0, 0, 0, 0]) ∧
    readUint16LengthPrefixed [0, 0, 0, 0, 0, 0] = some ([], [0, 0, 0, 0]) ∧
    readUint16LengthPrefixed [0, 0, 0, 0] = some ([], [0, 0]) ∧
    readUint16LengthPrefixed [0, 0] = some ([], []) ∧
    Decode [0, 0, 9, 0, 1, 0, 0, 0, 0, 0, 0, 0] ≠
      .error .invalidMultikeypair ∧
    Decode [0, 0, 9, 0, 1, 0, 0, 0, 0, 0, 0, 0] =
      .ok { Code := 0, Name := "identity", Public := [], PublicLength := 0,
            Private := [], PrivateLength := 0 } := by
  decide

/-- C6 (amended): the decoder reads exactly three fields and then stops:
fewer than three fields fails with InvalidMultikeypair (see the C5
theorem), but any remaining bytes inside the frame after the third
field — including additional well-formed fields — are silently ignored,
and `Decode` succeeds whenever the first three fields parse and the code
is registered.  Here `v3`, the residue after the third field, is
arbitrary. -/
theorem C6_amended (buf v c v1 p v2 q v3 : List Nat) (code : Nat)
    (h1 : readUint24LengthPrefixed buf = some (v, []))
    (h2 : readUint16LengthPrefixed v = some (c, v1))
    (h3 : UnpackCode c = .ok code)
    (h4 : readUint16LengthPrefixed v1 = some (p, v2))
    (h5 : readUint16LengthPrefixed v2 = some (q, v3))
    (h6 : validCode code = .ok ()) :
    Decode buf = .ok { Code := code, Name := codesLookup code,
                       Public := q, PublicLength := q.length,
                       Private := p, PrivateLength := p.length } :=
  decodeKeypair_ok_of buf v c v1 p v2 q v3 code h1 h2 h3 h4 h5 h6

/-- Witness for C6 (amended): a frame with a stray trailing byte inside
the frame after the third field still decodes successfully. -/
theorem C6_witness :
    Decode [0, 0, 9, 0, 1, 17, 0, 1, 170, 0, 0, 99] =
      .ok { Code := 17, Name := codesLookup 17,
            Public := [], PublicLength := ([] : List Nat).length,
            Private := [170],
            PrivateLength := ([170] : List Nat).length } :=
  C6_amended [0, 0, 9, 0, 1, 17, 0, 1, 170, 0, 0, 99]
    [0, 1, 17, 0, 1, 170, 0, 0, 99] [17] [0, 1, 170, 0, 0, 99] [170]
    [0, 0, 99] [] [99] 17 (by decide) (by decide) (by decide) (by decide)
    (by decide) (by decide)

/-- C7: a structurally well-formed three-field frame whose unpacked code
is not in the flat registry fails with the UnknownCode error, an error
distinct from InvalidMultikeypair; the hypotheses record that the code
check runs only after all three fields parse successfully. -/
theorem C7_unknown_code (buf v c v1 p v2 q v3 : List Nat) (code : Nat)
    (h1 : readUint24LengthPrefixed buf = some (v, []))
    (h2 : readUint16LengthPrefixed v = some (c, v1))
    (h3 : UnpackCode c = .ok code)
    (h4 : readUint16LengthPrefixed v1 = some (p, v2))
    (h5 : readUint16LengthPrefixed v2 = some (q, v3))
    (h6 : validCode code = .error .unknownCode) :
    Decode buf = .error .unknownCode ∧
    KErr.unknownCode ≠ KErr.invalidMultikeypair := by
  refine ⟨?_, by decide⟩
  simp [Decode, decodeKeypair, h1, h2, h3, h4, h5, h6]

/-- Witness for C7: a well-formed frame carrying the unregistered code 5
fails with UnknownCode. -/
theorem C7_witness :
    Decode [0, 0, 7, 0, 1, 5, 0, 0, 0, 0] = .error .unknownCode ∧
    KErr.unknownCode ≠ KErr.invalidMultikeypair :=
  C7_unknown_code [0, 0, 7, 0, 1, 5, 0, 0, 0, 0] [0, 1, 5, 0, 0, 0, 0]
    [5] [0, 0, 0, 0] [] [0, 0] [] [] 5 (by decide) (by decide) (by decide)
    (by decide) (by decide) (by decide)

/-- C8 counterexample: a buffer of exactly 10 continuation bytes — one
whose continuation bits never clear within the 10 bytes a 64-bit value
can need — makes the Go Uvarint loop run off the end of the buffer and
return `(0, 0)`, so `UnpackCode` fails with the BufferTooShort error,
not the VarintOverflow error the claim requires. -/
theorem C8_counterexample :
    UnpackCode (List.replicate 10 128) = .error .varintBufferShort ∧
    KErr.varintBufferShort ≠ KErr.varintTooLong := by
  decide

/-- C8 (amended): `UnpackCode` on an empty buffer fails BufferTooShort;
on a buffer whose first 10 bytes all have the continuation bit set it
fails VarintOverflow when an 11th byte is present but BufferTooShort
when the buffer ends after those 10 bytes; and `PackCode 0` yields
exactly one zero byte. -/
theorem C8_amended :
    UnpackCode [] = .error .varintBufferShort ∧
    (∀ buf : List Nat, buf.length = 10 →
      (∀ b ∈ buf, 128 ≤ b ∧ b < 256) →
      UnpackCode buf = .error .varintBufferShort) ∧
    (∀ (buf rest : List Nat) (b : Nat), buf.length = 10 →
      (∀ x ∈ buf, 128 ≤ x ∧ x < 256) →
      UnpackCode (buf ++ b :: rest) = .error .varintTooLong) ∧
    PackCode 0 = [0] := by
  refine ⟨by decide, ?_, ?_, packCode_small (by norm_num)⟩
  · intro buf hlen hb
    obtain ⟨s2, x2, h⟩ := uvarintGo_cont buf
      (fun b hbm => (hb b hbm).1) [] 0 0 0 (by omega)
    rw [List.append_nil] at h
    rw [UnpackCode, uvarint, h, hlen]
    rfl
  · intro buf rest b hlen hb
    obtain ⟨s2, x2, h⟩ := uvarintGo_cont buf
      (fun x hxm => (hb x hxm).1) (b :: rest) 0 0 0 (by omega)
    rw [UnpackCode, uvarint, h, hlen]
    rfl

/-- Witness for C8 (amended) at concrete all-continuation buffers. -/
theorem C8_witness :
    UnpackCode (List.replicate 10 200) = .error .varintBufferShort ∧
    UnpackCode (List.replicate 10 129 ++ 1 :: []) =
      .error .varintTooLong :=
  ⟨C8_amended.2.1 (List.replicate 10 200) (by decide) (by decide),
   C8_amended.2.2.1 (List.replicate 10 129) [] 1 (by decide) (by decide)⟩

/-- Witness for C10 at the name "rsa". -/
theorem C10_witness :
    namesLookup "rsa" = IDENTITY ∧
    EncodeName [1] [] "rsa" = Encode [1] [] IDENTITY ∧
    ∃ m, EncodeName [1] [] "rsa" = .ok m ∧
      Decode m = .ok { Code := IDENTITY, Name := "identity",
                       Public := [], PublicLength := ([] : List Nat).length,
                       Private := [1],
                       PrivateLength := ([1] : List Nat).length } :=
  C10_unknown_name_uses_identity "rsa" [1] [] (by decide) (by decide)
    (by decide)

end Multikeypair
